import Mathlib

/-!
Shallow embedding of the resolution and override engine of the
system-deps crate (src/lib.rs), together with theorems checking the
natural-language specification against it.

External collaborators (the pkg-config discovery tool, the
version-string comparator from the version_compare crate, the
cfg-expression matcher and the Cargo.toml parser) are modelled as
parameters: the engine's behaviour is proved for every behaviour of
those collaborators, or under explicit hypotheses about them.
Machine strings are Lean Strings; all definitions are executable.
-/

set_option autoImplicit false

namespace SystemDeps

/-- Helper mirroring the behaviour of the heck crate's shouty-snake-case
conversion and of feature-name normalization, on the identifiers used here.
Modelled from the spec: placeholders are the upper-cased dependency key
with separators normalized (section 6 of the spec); the heck crate itself
is an external collaborator not present in src/. -/
def upperSnake (s : String) : String :=
  String.mk (s.data.map (fun c => if c = '-' then '_' else c.toUpper))

/-- Character-level splitting used to model std::env::split_paths (on the
unix separator) and str::split; structurally recursive so that it
evaluates in the kernel. -/
def splitOnChar (c : Char) : List Char → List (List Char)
  | [] => [[]]
  | x :: xs =>
    let r := splitOnChar c xs
    if x = c then [] :: r
    else
      match r with
      | [] => [[x]]
      | y :: ys => (x :: y) :: ys

/-- Joining used to model std::env::join_paths content (unix separator). -/
def joinWithChar (c : Char) : List String → List Char
  | [] => []
  | [s] => s.data
  | s :: rest => s.data ++ c :: joinWithChar c rest

/-- Embeds fn split_paths of src/lib.rs (value split on the platform path
separator, empty input giving the empty list). -/
def split_paths (value : String) : List String :=
  if value ≠ "" then (splitOnChar ':' value.data).map String.mk
  else []

/-- Embeds fn split_string of src/lib.rs (value split on spaces, empty
input giving the empty list). -/
def split_string (value : String) : List String :=
  if value ≠ "" then (splitOnChar ' ' value.data).map String.mk
  else []

/-- Embeds std::env::join_paths as used by Dependencies::gen_flags: fails
when a path contains the separator, otherwise joins with it. -/
def join_paths (paths : List String) : Option String :=
  if paths.any (fun p => p.data.contains ':') then none
  else some (String.mk (joinWithChar ':' paths))

/-- Embeds enum EnvVariable of src/lib.rs: the environment variables a
user can define to tune system-deps. -/
inductive EnvVariable where
  | lib (s : String)
  | libFramework (s : String)
  | searchNative (s : String)
  | searchFramework (s : String)
  | incl (s : String)
  | noPkgConfig (s : String)
  | buildInternal (s : Option String)
  deriving DecidableEq, Repr

/-- Embeds impl Display for EnvVariable of src/lib.rs. -/
def EnvVariable.varName : EnvVariable → String
  | .lib s => "SYSTEM_DEPS_" ++ upperSnake s ++ "_LIB"
  | .libFramework s => "SYSTEM_DEPS_" ++ upperSnake s ++ "_LIB_FRAMEWORK"
  | .searchNative s => "SYSTEM_DEPS_" ++ upperSnake s ++ "_SEARCH_NATIVE"
  | .searchFramework s => "SYSTEM_DEPS_" ++ upperSnake s ++ "_SEARCH_FRAMEWORK"
  | .incl s => "SYSTEM_DEPS_" ++ upperSnake s ++ "_INCLUDE"
  | .noPkgConfig s => "SYSTEM_DEPS_" ++ upperSnake s ++ "_NO_PKG_CONFIG"
  | .buildInternal (some s) => "SYSTEM_DEPS_" ++ upperSnake s ++ "_BUILD_INTERNAL"
  | .buildInternal none => "SYSTEM_DEPS_BUILD_INTERNAL"

/-- The EnumIter order of the EnvVariable variants, instantiated at one
dependency key, exactly as the loop of Dependencies::gen_flags rebuilds
them (src/lib.rs lines 371-384). -/
def perKeyVars (name : String) : List EnvVariable :=
  [EnvVariable.lib name, EnvVariable.libFramework name,
   EnvVariable.searchNative name, EnvVariable.searchFramework name,
   EnvVariable.incl name, EnvVariable.noPkgConfig name,
   EnvVariable.buildInternal (some name)]

/-- Embeds enum EnvVariables / trait EnvVariablesExt of src/lib.rs: the
injectable environment accessor, as a partial map from variable names to
values. -/
abbrev Env := String → Option String

/-- Value lookup by raw variable name. -/
def envGetStr (env : Env) (s : String) : Option String := env s

/-- Value lookup by structured variable. -/
def envGet (env : Env) (v : EnvVariable) : Option String := env v.varName

/-- Existence check by structured variable (trait default method
contains). -/
def envContains (env : Env) (v : EnvVariable) : Bool := (envGet env v).isSome

/-- Existence check by raw name. -/
def envContainsStr (env : Env) (s : String) : Bool := (env s).isSome

/-- Embeds Config::has_feature of src/lib.rs: CARGO_FEATURE_ plus the
upper-cased feature name with dashes replaced by underscores.  In the
source the replacement follows the upper-casing; on ASCII identifiers the
combined effect is the single character map of upperSnake. -/
def has_feature (env : Env) (feature : String) : Bool :=
  envContainsStr env ("CARGO_FEATURE_" ++ upperSnake feature)

/-- Embeds enum Source of src/lib.rs. -/
inductive Source where
  | PkgConfig
  | EnvVariables
  deriving DecidableEq, Repr

/-- Opaque content of an external pkg_config::Error, modelled by its
message. -/
structure PkgConfigError where
  msg : String
  deriving DecidableEq, Repr

/-- Embeds enum BuildInternalClosureError of src/lib.rs. -/
inductive BuildInternalClosureError where
  | PkgConfig (e : PkgConfigError)
  | Failed (s : String)
  deriving DecidableEq, Repr

/-- Embeds struct Library of src/lib.rs; paths are strings. -/
structure Library where
  name : String
  source : Source
  libs : List String
  link_paths : List String
  frameworks : List String
  framework_paths : List String
  include_paths : List String
  defines : List (String × Option String)
  version : String
  deriving DecidableEq, Repr

/-- Embeds enum Error of src/lib.rs. FailToRead carries only the message
half since io::Error is external. -/
inductive Error where
  | PkgConfig (e : PkgConfigError)
  | BuildInternalClosureError (name : String) (e : BuildInternalClosureError)
  | FailToRead (s : String)
  | InvalidMetadata (s : String)
  | MissingLib (s : String)
  | BuildInternalInvalid (s : String)
  | BuildInternalNoClosure (name version : String)
  | BuildInternalWrongVersion (name got req : String)
  | UnsupportedCfg (s : String)
  deriving DecidableEq, Repr

/-- Embeds enum BuildInternal of src/lib.rs. -/
inductive BuildInternal where
  | auto
  | always
  | never
  deriving DecidableEq, Repr

/-- Embeds the strum EnumString parsing of BuildInternal (serialize_all
snake_case): exactly the three literal mode strings are accepted. -/
def BuildInternal.fromStr : String → Option BuildInternal
  | "auto" => some .auto
  | "always" => some .always
  | "never" => some .never
  | _ => none

/-- The external pkg_config::Library payload handed back by the discovery
tool. -/
structure PCLibrary where
  libs : List String
  link_paths : List String
  frameworks : List String
  framework_paths : List String
  include_paths : List String
  defines : List (String × Option String)
  version : String
  deriving DecidableEq, Repr

/-- Embeds Library::from_pkg_config of src/lib.rs. -/
def Library.from_pkg_config (name : String) (l : PCLibrary) : Library :=
  { name := name
    source := .PkgConfig
    libs := l.libs
    link_paths := l.link_paths
    include_paths := l.include_paths
    frameworks := l.frameworks
    framework_paths := l.framework_paths
    defines := l.defines
    version := l.version }

/-- Embeds Library::from_env_variables of src/lib.rs: an empty descriptor
with the user-overridden origin and the empty version string. -/
def Library.from_env_variables (name : String) : Library :=
  { name := name
    source := .EnvVariables
    libs := []
    link_paths := []
    include_paths := []
    frameworks := []
    framework_paths := []
    defines := []
    version := "" }

/-- The outcome of the version comparator collaborator
(version_compare::VersionCompare::compare followed by CompOp::ord): some
ordering, or none when comparison of the two version strings fails. -/
abbrev CmpFn := String → String → Option Ordering

/-- Embeds type FnBuildInternal of src/lib.rs: a caller-supplied fallback
closure. -/
abbrev FnBuildInternal := String → String → Except BuildInternalClosureError Library

/-- Embeds the build_internals HashMap of struct Config: closures keyed
by name, moved out on use. -/
abbrev Registry := List (String × FnBuildInternal)

/-- Embeds HashMap::remove on the fallback registry: take the closure
stored under the key out of the registry, if any. -/
def registryRemove (reg : Registry) (k : String) : Option FnBuildInternal × Registry :=
  match reg with
  | [] => (none, [])
  | (k₀, f) :: rest =>
    if k₀ = k then (some f, rest)
    else
      let r := registryRemove rest k
      (r.1, (k₀, f) :: r.2)

/-- Embeds Config::call_build_internal of src/lib.rs, with the registry
threaded explicitly.  Note the wildcard arm of the version comparison:
everything except a successful strictly-less result, a comparison
failure included, yields the library. -/
def call_build_internal (cmp : CmpFn) (reg : Registry) (name version : String) :
    Except Error Library × Registry :=
  match registryRemove reg name with
  | (none, r) => (.error (.BuildInternalNoClosure name version), r)
  | (some f, r) =>
    match f name version with
    | .error e => (.error (.BuildInternalClosureError name e), r)
    | .ok lib =>
      match cmp lib.version version with
      | some Ordering.lt =>
        (.error (.BuildInternalWrongVersion name lib.version version), r)
      | _ => (.ok lib, r)

/-- Embeds Config::get_build_internal_env_var of src/lib.rs. -/
def get_build_internal_env_var (env : Env) (var : EnvVariable) :
    Except Error (Option BuildInternal) :=
  match envGet env var with
  | some s =>
    match BuildInternal.fromStr s with
    | some b => .ok (some b)
    | none =>
      .error (.BuildInternalInvalid
        ("Invalid value in " ++ var.varName ++ ": " ++ s ++
         " (allowed: \x27auto\x27, \x27always\x27, \x27never\x27)"))
  | none => .ok none

/-- Embeds Config::get_build_internal_status of src/lib.rs: the per-key
variable first, the global one only if the per-key one is absent, the
default mode if both are absent. -/
def get_build_internal_status (env : Env) (name : String) : Except Error BuildInternal :=
  match get_build_internal_env_var env (.buildInternal (some name)) with
  | .error e => .error e
  | .ok (some b) => .ok b
  | .ok none =>
    match get_build_internal_env_var env (.buildInternal none) with
    | .error e => .error e
    | .ok (some b) => .ok b
    | .ok none => .ok .never

/-- Version override record of the manifest metadata (struct Override of
the metadata module).  Modelled from the spec: the metadata parser is not
under src/, only its consumers are; section 3 of the spec gives the
fields (feature-gate key, version string, optional replacement name,
optional replacement optional flag). -/
structure VersionOverride where
  key : String
  version : String
  name : Option String
  optional : Option Bool
  deriving DecidableEq, Repr

/-- Manifest entry record (struct Dependency of the metadata module).
Modelled from the spec: key, optional declared library name, optional
default minimum version, optional feature gate, optional flag, optional
target-configuration expression (kept as its original text, since the
matcher is external), and the ordered version overrides (section 3 of
the spec). -/
structure Dep where
  key : String
  version : Option String
  name : Option String
  feature : Option String
  optional : Bool
  cfg : Option String
  version_overrides : List VersionOverride
  deriving Repr

/-- Declared library name of a manifest entry.  Modelled from the spec:
the declared library name defaults to the entry's key (section 3 of the
spec); the metadata module implementing it is not under src/. -/
def Dep.lib_name (d : Dep) : String := d.name.getD d.key

/-- The external collaborators consulted by the resolution engine: the
version comparator, the pkg-config discovery tool and the
cfg-expression matcher. -/
structure Externals where
  cmp : CmpFn
  pkgProbe : String → String → Except PkgConfigError PCLibrary
  checkCfg : String → Option Bool

/-- Ordered insertion into an already sorted list, in the Option monad:
none models a panic of the sorting comparator (the two expect calls of
src/lib.rs lines 600-604) when the version comparison fails.  The
element is placed before the first list element it does not compare
strictly greater than, which is the stable ascending order Rust's
sort_by produces. -/
def orderedInsertO (cmp : CmpFn) (a : VersionOverride) :
    List VersionOverride → Option (List VersionOverride)
  | [] => some [a]
  | b :: l =>
    match cmp a.version b.version with
    | none => none
    | some ord =>
      if ord ≠ Ordering.gt then some (a :: b :: l)
      else (orderedInsertO cmp a l).map (b :: ·)

/-- Stable sort of the enabled version overrides by version, modelling
the sort_by call of Config::probe_pkg_config (src/lib.rs lines 599-604);
none models the comparator panicking on a version comparison failure. -/
def sortOverrides (cmp : CmpFn) : List VersionOverride → Option (List VersionOverride)
  | [] => some []
  | a :: l => (sortOverrides cmp l).bind (orderedInsertO cmp a)

/-- The version overrides of an entry whose feature gate is enabled
(src/lib.rs lines 582-588). -/
def enabled_overrides (env : Env) (dep : Dep) : List VersionOverride :=
  dep.version_overrides.filter (fun o => has_feature env o.key)

/-- Top-level feature gating of an entry (src/lib.rs lines 590-594):
true when the entry declares a feature that is not enabled. -/
def feature_gated (env : Env) (dep : Dep) : Bool :=
  match dep.feature with
  | some f => !(has_feature env f)
  | none => false

/-- The effective (version, library name, optional) selection of
Config::probe_pkg_config (src/lib.rs lines 596-614): the highest enabled
override wins, otherwise the entry's own fields; none models the panic
of a failed version comparison inside the sort. -/
def effective (cmp : CmpFn) (dep : Dep) (enabled : List VersionOverride) :
    Option (Option String × String × Bool) :=
  if enabled.isEmpty then some (dep.version, dep.lib_name, dep.optional)
  else
    match sortOverrides cmp enabled with
    | none => none
    | some sorted =>
      match sorted.getLast? with
      | none => none
      | some highest =>
        some (some highest.version, highest.name.getD dep.lib_name,
              highest.optional.getD dep.optional)

/-- Outcome of handling one manifest entry inside the loop of
Config::probe_pkg_config: skip the entry, accept a library, abort
resolution with an error, or panic. -/
inductive StepResult where
  | skip
  | found (lib : Library)
  | fail (e : Error)
  | panicked
  deriving DecidableEq, Repr

/-- Adapter threading the registry through a call_build_internal call
made with the question-mark operator inside the loop. -/
def callBI (cmp : CmpFn) (reg : Registry) (name version : String) :
    StepResult × Registry :=
  match call_build_internal cmp reg name version with
  | (.ok lib, r) => (.found lib, r)
  | (.error e, r) => (.fail e, r)

/-- Loop body of Config::probe_pkg_config (src/lib.rs lines 582-650)
after target gating: feature gating, effective version selection, the
missing-version check, build-internal mode resolution and the discovery
decision. -/
def probe_dep_inner (ext : Externals) (env : Env) (reg : Registry) (dep : Dep) :
    StepResult × Registry :=
  if feature_gated env dep then (.skip, reg)
  else
    match effective ext.cmp dep (enabled_overrides env dep) with
    | none => (.panicked, reg)
    | some (vOpt, libName, opt) =>
      match vOpt with
      | none => (.fail (.InvalidMetadata ("No version defined for " ++ dep.key)), reg)
      | some version =>
        match get_build_internal_status env dep.key with
        | .error e => (.fail e, reg)
        | .ok bi =>
          if envContains env (.noPkgConfig dep.key) then
            (.found (Library.from_env_variables dep.key), reg)
          else if bi = .always then
            callBI ext.cmp reg libName version
          else
            match ext.pkgProbe libName version with
            | .ok plib => (.found (Library.from_pkg_config libName plib), reg)
            | .error e =>
              if bi = .auto then callBI ext.cmp reg dep.key version
              else if opt then (.skip, reg)
              else (.fail (.PkgConfig e), reg)

/-- Loop body of Config::probe_pkg_config including target gating
(src/lib.rs lines 575-580): an uninterpretable cfg expression is a hard
failure, a false one skips the entry. -/
def probe_dep (ext : Externals) (env : Env) (reg : Registry) (dep : Dep) :
    StepResult × Registry :=
  match dep.cfg with
  | some cfg =>
    match ext.checkCfg cfg with
    | none => (.fail (.UnsupportedCfg cfg), reg)
    | some false => (.skip, reg)
    | some true => probe_dep_inner ext env reg dep
  | none => probe_dep_inner ext env reg dep

/-- Embeds Dependencies::add (HashMap::insert): a later descriptor under
the same key replaces the earlier one. -/
def depsAdd (libs : List (String × Library)) (name : String) (lib : Library) :
    List (String × Library) :=
  if libs.any (fun p => p.1 = name) then
    libs.map (fun p => if p.1 = name then (name, lib) else p)
  else libs ++ [(name, lib)]

/-- Overall outcome of Config::probe_pkg_config. -/
inductive ProbeOut where
  | panicked
  | fail (e : Error)
  | ok (libs : List (String × Library))
  deriving DecidableEq, Repr

/-- Embeds the loop of Config::probe_pkg_config over the parsed manifest
entries, threading the accepted descriptors and the fallback registry;
the manifest file reading itself is the external parser collaborator, so
the entries arrive as input. -/
def probe_pkg_config (ext : Externals) (env : Env) :
    Registry → List (String × Library) → List Dep → ProbeOut
  | _, acc, [] => .ok acc
  | reg, acc, dep :: rest =>
    match probe_dep ext env reg dep with
    | (.skip, r) => probe_pkg_config ext env r acc rest
    | (.found lib, r) => probe_pkg_config ext env r (depsAdd acc dep.key lib) rest
    | (.fail e, _) => .fail e
    | (.panicked, _) => .panicked

/-- Embeds the body of Dependencies::override_from_flags for one
descriptor (src/lib.rs lines 311-327): each of the five per-key override
variables, when present, fully replaces its field. -/
def override_from_flags_lib (env : Env) (name : String) (lib : Library) : Library :=
  let l1 :=
    match envGet env (.searchNative name) with
    | some value => { lib with link_paths := split_paths value }
    | none => lib
  let l2 :=
    match envGet env (.searchFramework name) with
    | some value => { l1 with framework_paths := split_paths value }
    | none => l1
  let l3 :=
    match envGet env (.lib name) with
    | some value => { l2 with libs := split_string value }
    | none => l2
  let l4 :=
    match envGet env (.libFramework name) with
    | some value => { l3 with frameworks := split_string value }
    | none => l3
  match envGet env (.incl name) with
  | some value => { l4 with include_paths := split_paths value }
  | none => l4

/-- Embeds Dependencies::override_from_flags of src/lib.rs over the
whole resolved set. -/
def override_from_flags (env : Env) (libs : List (String × Library)) :
    List (String × Library) :=
  libs.map (fun p => (p.1, override_from_flags_lib env p.1 p.2))

/-- Embeds Config::probe_full of src/lib.rs: resolution then the
override pass. -/
def probe_full (ext : Externals) (env : Env) (reg : Registry) (deps : List Dep) :
    ProbeOut :=
  match probe_pkg_config ext env reg [] deps with
  | .ok libs => .ok (override_from_flags env libs)
  | r => r

/-- Embeds enum BuildFlag of src/lib.rs (only the variants gen_flags
still emits). -/
inductive BuildFlag where
  | incl (s : String)
  | searchNative (s : String)
  | searchFramework (s : String)
  | lib (s : String)
  | libFramework (s : String)
  | rerunIfEnvChanged (v : EnvVariable)
  deriving DecidableEq, Repr

/-- A descriptor that must be rejected by flag generation: origin is the
no-discovery environment override yet neither libraries nor frameworks
were supplied (the condition of src/lib.rs lines 337-342). -/
def missingLibOffender (p : String × Library) : Prop :=
  p.2.source = .EnvVariables ∧ p.2.libs = [] ∧ p.2.frameworks = []

instance missingLibOffenderDec (p : String × Library) :
    Decidable (missingLibOffender p) :=
  inferInstanceAs (Decidable (p.2.source = .EnvVariables ∧ p.2.libs = [] ∧
    p.2.frameworks = []))

/-- First loop of Dependencies::gen_flags (src/lib.rs lines 334-356):
collect the include paths of every descriptor, failing with MissingLib
on the first user-overridden descriptor with neither libs nor
frameworks. -/
def collectIncludes : List (String × Library) → Except Error (List String)
  | [] => .ok []
  | (name, lib) :: rest =>
    if missingLibOffender (name, lib) then
      .error (.MissingLib name)
    else
      match collectIncludes rest with
      | .error e => .error e
      | .ok r => .ok (lib.include_paths ++ r)

/-- Embeds Dependencies::gen_flags of src/lib.rs: the include directive
when the joined include paths are non-empty, the rerun directive for the
global build-internal variable, and one rerun directive per resolved key
and per EnvVariable variant. -/
def gen_flags (deps : List (String × Library)) : Except Error (List BuildFlag) :=
  match collectIncludes deps with
  | .error e => .error e
  | .ok include_paths =>
    let incFlags :=
      if include_paths ≠ [] then
        match join_paths include_paths with
        | some s => [BuildFlag.incl s]
        | none => []
      else []
    .ok (incFlags ++
         BuildFlag.rerunIfEnvChanged (.buildInternal none) ::
           deps.flatMap (fun p => (perKeyVars p.1).map BuildFlag.rerunIfEnvChanged))

/-- Target gating of one entry succeeds: no cfg expression, or the
matcher evaluates it to true. -/
def cfg_passes (ext : Externals) (dep : Dep) : Bool :=
  match dep.cfg with
  | none => true
  | some c => ext.checkCfg c = some true

lemma probe_dep_of_cfg_passes (ext : Externals) (env : Env) (reg : Registry)
    (dep : Dep) (h : cfg_passes ext dep = true) :
    probe_dep ext env reg dep = probe_dep_inner ext env reg dep := by
  unfold cfg_passes at h
  unfold probe_dep
  cases hc : dep.cfg with
  | none => rfl
  | some c =>
    rw [hc] at h
    simp only [decide_eq_true_eq] at h
    simp [h]

lemma override_lib_idem (env : Env) (name : String) (lib : Library) :
    override_from_flags_lib env name (override_from_flags_lib env name lib) =
      override_from_flags_lib env name lib := by
  unfold override_from_flags_lib
  cases h1 : envGet env (.searchNative name) <;>
    cases h2 : envGet env (.searchFramework name) <;>
      cases h3 : envGet env (.lib name) <;>
        cases h4 : envGet env (.libFramework name) <;>
          cases h5 : envGet env (.incl name) <;>
            simp [h1, h2, h3, h4, h5]

/-- C7: the environment-override pass is idempotent, and each of the
five per-key override variables, when present, fully replaces the
corresponding descriptor field (the empty string counting as present and
clearing the field, since splitting the empty string gives the empty
list). -/
theorem c7_override_idempotent_and_replacing (env : Env) :
    (∀ libs, override_from_flags env (override_from_flags env libs) =
        override_from_flags env libs) ∧
    (∀ name lib v,
      (envGet env (.lib name) = some v →
          (override_from_flags_lib env name lib).libs = split_string v) ∧
      (envGet env (.libFramework name) = some v →
          (override_from_flags_lib env name lib).frameworks = split_string v) ∧
      (envGet env (.searchNative name) = some v →
          (override_from_flags_lib env name lib).link_paths = split_paths v) ∧
      (envGet env (.searchFramework name) = some v →
          (override_from_flags_lib env name lib).framework_paths = split_paths v) ∧
      (envGet env (.incl name) = some v →
          (override_from_flags_lib env name lib).include_paths = split_paths v)) ∧
    split_string "" = [] ∧ split_paths "" = [] := by
  refine ⟨?_, ?_, by decide, by decide⟩
  · intro libs
    unfold override_from_flags
    rw [List.map_map]
    apply List.map_congr_left
    intro p _
    simp only [Function.comp_apply]
    rw [override_lib_idem]
  · intro name lib v
    refine ⟨?_, ?_, ?_, ?_, ?_⟩ <;>
      · intro hv
        unfold override_from_flags_lib
        cases h1 : envGet env (.searchNative name) <;>
          cases h2 : envGet env (.searchFramework name) <;>
            cases h3 : envGet env (.lib name) <;>
              cases h4 : envGet env (.libFramework name) <;>
                cases h5 : envGet env (.incl name) <;>
                  simp_all

/-- Concrete instance of the override-pass theorem: an empty per-key
link-libraries variable clears the field of a descriptor that had a
library. -/
def envW7 : Env := fun s => if s = "SYSTEM_DEPS_GLIB_LIB" then some "" else none

def libW7 : Library :=
  { name := "glib", source := .PkgConfig, libs := ["glib-2.0"], link_paths := [],
    frameworks := [], framework_paths := [], include_paths := [], defines := [],
    version := "2.64" }

/-- Witness for C7 at a concrete environment and descriptor. -/
theorem c7_witness :
    (override_from_flags_lib envW7 "glib" libW7).libs = split_string "" :=
  ((c7_override_idempotent_and_replacing envW7).2.1 "glib" libW7 "").1 (by decide)

lemma fromStr_none (s : String) (h1 : s ≠ "auto") (h2 : s ≠ "always")
    (h3 : s ≠ "never") : BuildInternal.fromStr s = none := by
  unfold BuildInternal.fromStr
  split <;> simp_all

/-- C6: the build-internal mode is resolved from the per-key variable
first, from the global variable only when the per-key one is absent, and
defaults to never; a value other than the three recognized modes in
whichever variable is read fails naming that variable and the value. -/
theorem c6_build_internal_mode (env : Env) (name s : String) :
    (∀ b, envGet env (.buildInternal (some name)) = some s →
        BuildInternal.fromStr s = some b →
        get_build_internal_status env name = .ok b) ∧
    (envGet env (.buildInternal (some name)) = some s →
        s ≠ "auto" → s ≠ "always" → s ≠ "never" →
        get_build_internal_status env name =
          .error (.BuildInternalInvalid ("Invalid value in " ++
            (EnvVariable.buildInternal (some name)).varName ++ ": " ++ s ++
            " (allowed: \x27auto\x27, \x27always\x27, \x27never\x27)"))) ∧
    (∀ b, envGet env (.buildInternal (some name)) = none →
        envGet env (.buildInternal none) = some s →
        BuildInternal.fromStr s = some b →
        get_build_internal_status env name = .ok b) ∧
    (envGet env (.buildInternal (some name)) = none →
        envGet env (.buildInternal none) = some s →
        s ≠ "auto" → s ≠ "always" → s ≠ "never" →
        get_build_internal_status env name =
          .error (.BuildInternalInvalid ("Invalid value in " ++
            (EnvVariable.buildInternal none).varName ++ ": " ++ s ++
            " (allowed: \x27auto\x27, \x27always\x27, \x27never\x27)"))) ∧
    (envGet env (.buildInternal (some name)) = none →
        envGet env (.buildInternal none) = none →
        get_build_internal_status env name = .ok .never) := by
  refine ⟨?_, ?_, ?_, ?_, ?_⟩
  · intro b hv hb
    unfold get_build_internal_status get_build_internal_env_var
    simp only [hv, hb]
  · intro hv h1 h2 h3
    unfold get_build_internal_status get_build_internal_env_var
    simp only [hv, fromStr_none s h1 h2 h3]
  · intro b hp hg hb
    unfold get_build_internal_status get_build_internal_env_var
    simp only [hp, hg, hb]
  · intro hp hg h1 h2 h3
    unfold get_build_internal_status get_build_internal_env_var
    simp only [hp, hg, fromStr_none s h1 h2 h3]
  · intro hp hg
    unfold get_build_internal_status get_build_internal_env_var
    simp only [hp, hg]

/-- Concrete environment for the build-internal mode witness: an invalid
per-key value together with a valid global one. -/
def envW6 : Env := fun s =>
  if s = "SYSTEM_DEPS_GLIB_BUILD_INTERNAL" then some "sometimes"
  else if s = "SYSTEM_DEPS_BUILD_INTERNAL" then some "auto" else none

/-- Witness for C6 at a concrete environment: the invalid per-key value
wins over the valid global one and is rejected naming the per-key
variable. -/
theorem c6_witness :
    get_build_internal_status envW6 "glib" =
      .error (.BuildInternalInvalid
        ("Invalid value in SYSTEM_DEPS_GLIB_BUILD_INTERNAL: sometimes" ++
         " (allowed: \x27auto\x27, \x27always\x27, \x27never\x27)")) := by
  have h := (c6_build_internal_mode envW6 "glib" "sometimes").2.1
    (by decide) (by decide) (by decide) (by decide)
  rw [h]
  rfl

lemma collectIncludes_ok (deps : List (String × Library))
    (h : ∀ p ∈ deps, ¬ missingLibOffender p) :
    ∃ incs, collectIncludes deps = .ok incs := by
  induction deps with
  | nil => exact ⟨[], rfl⟩
  | cons p rest ih =>
    obtain ⟨name, lib⟩ := p
    have hp : ¬ missingLibOffender (name, lib) := h _ (List.mem_cons_self _ _)
    obtain ⟨incs, hincs⟩ := ih (fun q hq => h q (List.mem_cons_of_mem _ hq))
    refine ⟨lib.include_paths ++ incs, ?_⟩
    unfold collectIncludes
    rw [if_neg hp, hincs]

lemma collectIncludes_error (deps : List (String × Library)) (e : Error)
    (h : collectIncludes deps = .error e) :
    ∃ p, p ∈ deps ∧ missingLibOffender p ∧ e = .MissingLib p.1 := by
  induction deps with
  | nil => simp [collectIncludes] at h
  | cons p rest ih =>
    obtain ⟨name, lib⟩ := p
    unfold collectIncludes at h
    by_cases hp : missingLibOffender (name, lib)
    · rw [if_pos hp] at h
      refine ⟨(name, lib), List.mem_cons_self _ _, hp, ?_⟩
      cases h
      rfl
    · rw [if_neg hp] at h
      cases hr : collectIncludes rest with
      | error e₂ =>
        rw [hr] at h
        cases h
        obtain ⟨q, hq, hoff, heq⟩ := ih hr
        exact ⟨q, List.mem_cons_of_mem _ hq, hoff, heq⟩
      | ok incs =>
        rw [hr] at h
        cases h

lemma collectIncludes_error_of_offender (deps : List (String × Library))
    (p : String × Library) (hmem : p ∈ deps) (hoff : missingLibOffender p) :
    ∃ e, collectIncludes deps = .error e := by
  induction deps with
  | nil => cases hmem
  | cons q rest ih =>
    obtain ⟨name, lib⟩ := q
    by_cases hq : missingLibOffender (name, lib)
    · refine ⟨.MissingLib name, ?_⟩
      unfold collectIncludes
      rw [if_pos hq]
    · rcases List.mem_cons.mp hmem with heq | hmem₂
      · rw [heq] at hoff
        exact absurd hoff hq
      · obtain ⟨e, he⟩ := ih hmem₂
        refine ⟨e, ?_⟩
        unfold collectIncludes
        rw [if_neg hq, he]

/-- C8: flag generation fails with the MissingLib error exactly on a
no-discovery-origin descriptor with both link libraries and frameworks
empty; the error names such an offending key, and a no-discovery
descriptor with only link libraries set succeeds. -/
theorem c8_missing_lib (deps : List (String × Library)) :
    (∀ name lib, (name, lib) ∈ deps → lib.source = .EnvVariables →
        lib.libs = [] → lib.frameworks = [] →
        ∃ name₂ lib₂, gen_flags deps = .error (.MissingLib name₂) ∧
          (name₂, lib₂) ∈ deps ∧ lib₂.source = .EnvVariables ∧
          lib₂.libs = [] ∧ lib₂.frameworks = []) ∧
    ((∀ name lib, (name, lib) ∈ deps → lib.source = .EnvVariables →
        ¬ (lib.libs = [] ∧ lib.frameworks = [])) →
      ∃ flags, gen_flags deps = .ok flags) ∧
    (∀ name lib, lib.source = .EnvVariables → lib.libs ≠ [] →
      ∃ flags, gen_flags [(name, lib)] = .ok flags) := by
  refine ⟨?_, ?_, ?_⟩
  · intro name lib hmem hsrc hlibs hfw
    obtain ⟨e, he⟩ := collectIncludes_error_of_offender deps (name, lib) hmem
      ⟨hsrc, hlibs, hfw⟩
    obtain ⟨⟨name₂, lib₂⟩, hq, ⟨hs₂, hl₂, hf₂⟩, heq⟩ := collectIncludes_error deps e he
    refine ⟨name₂, lib₂, ?_, hq, hs₂, hl₂, hf₂⟩
    unfold gen_flags
    rw [he, heq]
  · intro h
    obtain ⟨incs, hincs⟩ := collectIncludes_ok deps (by
      rintro ⟨name, lib⟩ hmem ⟨hsrc, hlibs, hfw⟩
      exact h name lib hmem hsrc ⟨hlibs, hfw⟩)
    unfold gen_flags
    rw [hincs]
    exact ⟨_, rfl⟩
  · intro name lib hsrc hlibs
    obtain ⟨incs, hincs⟩ := collectIncludes_ok [(name, lib)] (by
      rintro ⟨name₂, lib₂⟩ hmem ⟨hsrc₂, hlibs₂, hfw₂⟩
      rcases List.mem_cons.mp hmem with heq | hmem₂
      · cases heq
        exact hlibs hlibs₂
      · cases hmem₂)
    unfold gen_flags
    rw [hincs]
    exact ⟨_, rfl⟩

/-- Concrete offending set for the MissingLib witness. -/
def depsW8 : List (String × Library) := [("glib", Library.from_env_variables "glib")]

/-- Witness for C8: a single no-discovery descriptor with neither libs
nor frameworks makes flag generation fail with MissingLib naming it. -/
theorem c8_witness : gen_flags depsW8 = .error (.MissingLib "glib") := by
  obtain ⟨name₂, lib₂, hflags, hmem, -, -, -⟩ :=
    (c8_missing_lib depsW8).1 "glib" (Library.from_env_variables "glib")
      (List.mem_cons_self _ _) rfl rfl rfl
  rcases List.mem_cons.mp hmem with heq | hmem₂
  · rw [hflags]
    cases heq
    rfl
  · cases hmem₂

/-- C9: a successful flag generation emits the rerun-if-env-changed
directive for the global build-internal variable and, for every resolved
key, one rerun directive for each of the seven per-key variables (link
libs, framework libs, search-native, search-framework, include,
no-discovery, build-internal), whether or not they are set. -/
theorem c9_rerun_directives (deps : List (String × Library)) (flags : List BuildFlag)
    (h : gen_flags deps = .ok flags) :
    BuildFlag.rerunIfEnvChanged (.buildInternal none) ∈ flags ∧
    ∀ name lib, (name, lib) ∈ deps →
      ∀ v ∈ perKeyVars name, BuildFlag.rerunIfEnvChanged v ∈ flags := by
  unfold gen_flags at h
  cases hc : collectIncludes deps with
  | error e => rw [hc] at h; cases h
  | ok incs =>
    rw [hc] at h
    cases h
    constructor
    · exact List.mem_append_right _ (List.mem_cons_self _ _)
    · intro name lib hmem v hv
      apply List.mem_append_right
      apply List.mem_cons_of_mem
      rw [List.mem_flatMap]
      exact ⟨(name, lib), hmem, List.mem_map_of_mem _ hv⟩

/-- Concrete resolved set for the rerun-directive witness. -/
def depsW9 : List (String × Library) :=
  [("testlib", Library.from_pkg_config "testlib"
      { libs := ["testlib"], link_paths := [], frameworks := [], framework_paths := [],
        include_paths := [], defines := [], version := "1.2" })]

/-- Witness for C9 at a concrete resolved set: the per-key no-discovery
variable gets a rerun directive even though it is not set. -/
theorem c9_witness :
    ∃ flags, gen_flags depsW9 = .ok flags ∧
      BuildFlag.rerunIfEnvChanged (.noPkgConfig "testlib") ∈ flags := by
  refine ⟨_, rfl, ?_⟩
  exact ((c9_rerun_directives depsW9 _ rfl).2 "testlib" _ (List.mem_cons_self _ _)
    (.noPkgConfig "testlib") (by decide))

/-- A comparator that fails on every pair of version strings. -/
def cmpFailing : CmpFn := fun _ _ => none

/-- A concrete library a fallback closure may return. -/
def libC2 : Library :=
  { name := "tl", source := .PkgConfig, libs := ["tl"], link_paths := [],
    frameworks := [], framework_paths := [], include_paths := [], defines := [],
    version := "0.1" }

/-- Concrete registry: one closure registered under the key tl that
returns libC2. -/
def regC2 : Registry := [("tl", fun _ _ => .ok libC2)]

/-- C2 counterexample: the fallback closure is invoked and returns a
library, the version comparison itself fails (the comparator returns no
ordering), and yet resolution accepts the library instead of failing:
a comparison failure is silently treated as the version being
acceptable, because the wildcard arm of Config::call_build_internal
(src/lib.rs line 694) also catches the Err case of the comparison. -/
theorem c2_counterexample :
    cmpFailing libC2.version "1.0" = none ∧
    (call_build_internal cmpFailing regC2 "tl" "1.0").1 = .ok libC2 :=
  ⟨rfl, rfl⟩

/-- C2 amended: whenever the fallback closure is invoked and returns a
library, resolution fails with the fallback-version-too-low error
(naming the looked-up name, the actual version and the required
version) exactly when the comparator returns a successful strictly-less
result; any other comparison outcome, a comparison failure included, is
accepted. -/
theorem c2_fallback_version_check (cmp : CmpFn) (reg : Registry)
    (name version : String) (f : FnBuildInternal) (reg₂ : Registry) (lib : Library)
    (hrem : registryRemove reg name = (some f, reg₂))
    (hf : f name version = .ok lib) :
    call_build_internal cmp reg name version =
      (if cmp lib.version version = some Ordering.lt then
        .error (.BuildInternalWrongVersion name lib.version version)
       else .ok lib, reg₂) := by
  unfold call_build_internal
  rw [hrem]
  simp only [hf]
  cases hc : cmp lib.version version with
  | none => simp [hc]
  | some o => cases o <;> simp [hc]

/-- Witness for the amended C2 at a concrete comparator that reports
the built version strictly below the requirement. -/
theorem c2_witness :
    call_build_internal (fun a b => if a = "0.1" ∧ b = "1.0" then some .lt else none)
        regC2 "tl" "1.0" =
      (.error (.BuildInternalWrongVersion "tl" "0.1" "1.0"), []) := by
  rw [c2_fallback_version_check
    (fun a b => if a = "0.1" ∧ b = "1.0" then some Ordering.lt else none)
    regC2 "tl" "1.0" (fun _ _ => .ok libC2) [] libC2 rfl rfl]
  rfl

/-- Concrete resolution inputs exhibiting the build-internal lookup bug:
the manifest key is glib, the declared library name is glib-2.0, the
per-key build-internal mode is always, and a fallback closure is
registered under the manifest key glib. -/
def libC3 : Library :=
  { name := "glib-2.0", source := .PkgConfig, libs := ["glib-2.0"], link_paths := [],
    frameworks := [], framework_paths := [], include_paths := [], defines := [],
    version := "2.64" }

def extC3 : Externals :=
  { cmp := fun _ _ => some Ordering.eq
    pkgProbe := fun _ _ => .error { msg := "not found" }
    checkCfg := fun _ => some true }

def envC3 : Env := fun s =>
  if s = "SYSTEM_DEPS_GLIB_BUILD_INTERNAL" then some "always" else none

def regC3 : Registry := [("glib", fun _ _ => .ok libC3)]

def depC3 : Dep :=
  { key := "glib", version := some "2.64", name := some "glib-2.0", feature := none,
    optional := false, cfg := none, version_overrides := [] }

/-- C3: evaluation of the code at the failing input.  In the always
branch Config::probe_pkg_config passes lib_name, the effective library
name, to call_build_internal (src/lib.rs line 626), so the closure
registered under the manifest key glib is never found and resolution
fails with the missing-closure error naming glib-2.0 — although a
closure for this dependency is registered, the auto branch (line 639)
looks it up under the key, and the Config::add_build_internal
documentation registers closures under the Cargo.toml name. -/
theorem c3_code_bug_eval :
    (probe_dep extC3 envC3 regC3 depC3).1 =
      .fail (.BuildInternalNoClosure "glib-2.0" "2.64") := by
  decide

/-- Concrete gated entry without any version. -/
def depC5 : Dep :=
  { key := "foo", version := none, name := none, feature := none,
    optional := false, cfg := none, version_overrides := [] }

def extC5 : Externals :=
  { cmp := fun _ _ => some Ordering.eq
    pkgProbe := fun _ _ => .error { msg := "not found" }
    checkCfg := fun _ => some true }

/-- C5 counterexample: an entry with no version and no override fails,
but with the invalid-metadata error kind carrying the message naming the
key (src/lib.rs lines 616-618) — the source error enum has no separate
missing-version variant, so the failure is not a distinct error kind
separate from invalid-metadata. -/
theorem c5_counterexample :
    (probe_dep extC5 (fun _ => none) [] depC5).1 =
      .fail (.InvalidMetadata "No version defined for foo") := by
  decide

/-- C5 amended: an entry passing gating with no plain version and no
enabled override supplying one fails resolution with the
invalid-metadata error carrying the message naming the entry's key; the
missing-version condition is reported through the invalid-metadata
variant, not through a distinct error kind. -/
theorem c5_missing_version (ext : Externals) (env : Env) (reg : Registry)
    (dep : Dep) (libName : String) (opt : Bool)
    (hcfg : cfg_passes ext dep = true)
    (hfeat : feature_gated env dep = false)
    (heff : effective ext.cmp dep (enabled_overrides env dep) = some (none, libName, opt)) :
    probe_dep ext env reg dep =
      (.fail (.InvalidMetadata ("No version defined for " ++ dep.key)), reg) ∧
    ∀ acc rest, probe_pkg_config ext env reg acc (dep :: rest) =
      .fail (.InvalidMetadata ("No version defined for " ++ dep.key)) := by
  have hstep : probe_dep ext env reg dep =
      (.fail (.InvalidMetadata ("No version defined for " ++ dep.key)), reg) := by
    rw [probe_dep_of_cfg_passes ext env reg dep hcfg]
    unfold probe_dep_inner
    rw [hfeat]
    simp only [Bool.false_eq_true, if_false, heff]
  refine ⟨hstep, ?_⟩
  intro acc rest
  unfold probe_pkg_config
  rw [hstep]

/-- Witness for the amended C5 at the concrete versionless entry. -/
theorem c5_witness :
    probe_dep extC5 (fun _ => none) [] depC5 =
      (.fail (.InvalidMetadata "No version defined for foo"), []) :=
  (c5_missing_version extC5 (fun _ => none) [] depC5 "foo" false rfl rfl rfl).1

/-- C1: for an entry that passes target and feature gating, has an
effective version and whose build-internal mode resolves, the discovery
decision follows the precedence env-no-discovery, then
build-internal-always, then discovery.  With the no-discovery variable
set, the result is the fixed user-overridden descriptor, for every
discovery tool and every fallback registry (so neither is ever
consulted) — its fields are then supplied by the override pass.  With
the mode always, the result is exactly a fallback invocation, again for
every discovery tool.  Otherwise the discovery tool is invoked at the
effective library name and version. -/
theorem c1_discovery_precedence (ext : Externals) (env : Env) (reg : Registry)
    (dep : Dep) (version libName : String) (opt : Bool) (bi : BuildInternal)
    (hcfg : cfg_passes ext dep = true)
    (hfeat : feature_gated env dep = false)
    (heff : effective ext.cmp dep (enabled_overrides env dep) =
      some (some version, libName, opt))
    (hbi : get_build_internal_status env dep.key = .ok bi) :
    (envContains env (.noPkgConfig dep.key) = true →
      probe_dep ext env reg dep =
        (.found (Library.from_env_variables dep.key), reg) ∧
      (Library.from_env_variables dep.key).source = .EnvVariables) ∧
    (envContains env (.noPkgConfig dep.key) = false → bi = .always →
      probe_dep ext env reg dep = callBI ext.cmp reg libName version) ∧
    (envContains env (.noPkgConfig dep.key) = false → bi ≠ .always →
      ∀ plib, ext.pkgProbe libName version = .ok plib →
        probe_dep ext env reg dep =
          (.found (Library.from_pkg_config libName plib), reg)) := by
  have hstep : probe_dep ext env reg dep = probe_dep_inner ext env reg dep :=
    probe_dep_of_cfg_passes ext env reg dep hcfg
  refine ⟨?_, ?_, ?_⟩
  · intro hno
    rw [hstep]
    unfold probe_dep_inner
    rw [hfeat]
    simp only [Bool.false_eq_true, if_false, heff, hbi, hno, if_true]
    exact ⟨trivial, rfl⟩
  · intro hno hbia
    rw [hstep]
    unfold probe_dep_inner
    rw [hfeat]
    simp only [Bool.false_eq_true, if_false, heff, hbi, hno, hbia, if_true]
  · intro hno hbia plib hplib
    rw [hstep]
    unfold probe_dep_inner
    rw [hfeat]
    simp only [Bool.false_eq_true, if_false, heff, hbi, hno, hbia, hplib, if_true]

/-- Concrete inputs for the precedence witness: the no-discovery
variable set for the key testlib. -/
def extW1 : Externals :=
  { cmp := fun _ _ => some Ordering.eq
    pkgProbe := fun _ _ => .error { msg := "not found" }
    checkCfg := fun _ => some true }

def envW1 : Env := fun s =>
  if s = "SYSTEM_DEPS_TESTLIB_NO_PKG_CONFIG" then some "1" else none

def depW1 : Dep :=
  { key := "testlib", version := some "1.2", name := none, feature := none,
    optional := false, cfg := none, version_overrides := [] }

/-- Witness for C1 at a concrete entry: the no-discovery override
produces the user-overridden descriptor without consulting discovery or
the (empty) registry. -/
theorem c1_witness :
    probe_dep extW1 envW1 [] depW1 =
      (.found (Library.from_env_variables "testlib"), []) :=
  ((c1_discovery_precedence extW1 envW1 [] depW1 "1.2" "testlib" false .never
    rfl rfl rfl rfl) |>.1 (by decide)).1

/-- The override x compares strictly below the override o under the
comparator, in both directions (a consistent comparator answers both
ways). -/
def strictlyBelow (cmp : CmpFn) (o x : VersionOverride) : Prop :=
  cmp o.version x.version = some Ordering.gt ∧
  cmp x.version o.version = some Ordering.lt

instance strictlyBelowDec (cmp : CmpFn) (o x : VersionOverride) :
    Decidable (strictlyBelow cmp o x) :=
  inferInstanceAs (Decidable (_ ∧ _))

lemma strictlyBelow_irrefl (cmp : CmpFn) (o : VersionOverride) :
    ¬ strictlyBelow cmp o o := by
  rintro ⟨h1, h2⟩
  rw [h1] at h2
  cases h2

/-- A list that is a block of elements strictly below o followed by a
block of copies of o: the shape insertion keeps sorted lists in when o
is the unique maximum. -/
def maxTail (cmp : CmpFn) (o : VersionOverride) (s : List VersionOverride) : Prop :=
  ∃ u v, s = u ++ v ∧ (∀ x ∈ u, strictlyBelow cmp o x) ∧ (∀ x ∈ v, x = o)

lemma orderedInsertO_maxTail (cmp : CmpFn) (o a : VersionOverride)
    (ha : a = o ∨ strictlyBelow cmp o a) :
    ∀ s, maxTail cmp o s →
      (∀ b ∈ s, (cmp a.version b.version).isSome = true) →
      ∃ t, orderedInsertO cmp a s = some t ∧ maxTail cmp o t ∧
        (∀ x, x ∈ t ↔ x = a ∨ x ∈ s) := by
  intro s
  induction s with
  | nil =>
    intro _ _
    refine ⟨[a], rfl, ?_, by simp⟩
    rcases ha with rfl | hb
    · exact ⟨[], [a], rfl, by simp, by simp⟩
    · exact ⟨[a], [], by simp, by simpa using hb, by simp⟩
  | cons b l ih =>
    rintro ⟨u, v, heq, hu, hv⟩ hdef
    have hb : (cmp a.version b.version).isSome = true :=
      hdef b (List.mem_cons_self _ _)
    cases hc : cmp a.version b.version with
    | none => rw [hc] at hb; cases hb
    | some ord =>
      by_cases hgt : ord = Ordering.gt
      · -- a compares strictly greater than b: walk past b
        have hmt : maxTail cmp o l := by
          cases u with
          | nil =>
            have hveq : v = b :: l := by simpa using heq.symm
            refine ⟨[], l, by simp, by simp, ?_⟩
            intro x hx
            exact hv x (by rw [hveq]; exact List.mem_cons_of_mem _ hx)
          | cons b₀ u₀ =>
            simp only [List.cons_append, List.cons.injEq] at heq
            exact ⟨u₀, v, heq.2, fun x hx => hu x (List.mem_cons_of_mem _ hx), hv⟩
        obtain ⟨t, hins, hmt₂, hmem⟩ := ih hmt
          (fun x hx => hdef x (List.mem_cons_of_mem _ hx))
        refine ⟨b :: t, ?_, ?_, ?_⟩
        · unfold orderedInsertO
          rw [hc]
          simp [hgt, hins]
        · -- b :: t is again a maxTail list
          cases u with
          | nil =>
            -- the whole of b :: l is copies of o, so b = o
            have hveq : v = b :: l := by simpa using heq.symm
            have hbo : b = o := hv b (by rw [hveq]; exact List.mem_cons_self _ _)
            rcases ha with rfl | hbelow
            · refine ⟨[], b :: t, rfl, by simp, ?_⟩
              intro x hx
              rcases List.mem_cons.mp hx with rfl | hx₂
              · exact hbo
              · rcases (hmem x).mp hx₂ with rfl | hx₃
                · rfl
                · exact hv x (by rw [hveq]; exact List.mem_cons_of_mem _ hx₃)
            · -- impossible: a strictly below o yet compares greater than o
              rw [hbo] at hc
              rw [hbelow.2] at hc
              cases hc
              cases hgt
          | cons b₀ u₀ =>
            simp only [List.cons_append, List.cons.injEq] at heq
            obtain ⟨u₂, v₂, ht, hu₂, hv₂⟩ := hmt₂
            refine ⟨b :: u₂, v₂, by simp [ht], ?_, hv₂⟩
            intro x hx
            rcases List.mem_cons.mp hx with rfl | hx₂
            · rw [heq.1]
              exact hu b₀ (List.mem_cons_self _ _)
            · exact hu₂ x hx₂
        · intro x
          simp only [List.mem_cons, hmem x]
          tauto
      · -- a is inserted in front of b
        refine ⟨a :: b :: l, ?_, ?_, by simp⟩
        · unfold orderedInsertO
          rw [hc]
          simp [hgt]
        · rcases ha with rfl | hbelow
          · -- a = o: everything after it must be copies of o
            cases u with
            | nil =>
              have hveq : v = b :: l := by simpa using heq.symm
              refine ⟨[], a :: b :: l, rfl, by simp, ?_⟩
              intro x hx
              rcases List.mem_cons.mp hx with rfl | hx₂
              · rfl
              · exact hv x (by rw [hveq]; exact hx₂)
            | cons b₀ u₀ =>
              -- impossible: b is strictly below o, so o compares greater
              simp only [List.cons_append, List.cons.injEq] at heq
              have hbb : strictlyBelow cmp a b := by
                rw [heq.1]
                exact hu b₀ (List.mem_cons_self _ _)
              rw [hbb.1] at hc
              cases hc
              simp at hgt
          · exact ⟨a :: u, v, by simp [heq], by
              intro x hx
              rcases List.mem_cons.mp hx with rfl | hx₂
              · exact hbelow
              · exact hu x hx₂, hv⟩

lemma sortOverrides_maxTail (cmp : CmpFn) (o : VersionOverride) :
    ∀ l, (∀ x ∈ l, x = o ∨ strictlyBelow cmp o x) →
      (∀ a ∈ l, ∀ b ∈ l, (cmp a.version b.version).isSome = true) →
      ∃ t, sortOverrides cmp l = some t ∧ maxTail cmp o t ∧
        (∀ x, x ∈ t ↔ x ∈ l) := by
  intro l
  induction l with
  | nil =>
    intro _ _
    exact ⟨[], rfl, ⟨[], [], rfl, by simp, by simp⟩, by simp⟩
  | cons a l ih =>
    intro helem hdef
    obtain ⟨t, hsort, hmt, hmem⟩ := ih
      (fun x hx => helem x (List.mem_cons_of_mem _ hx))
      (fun x hx y hy => hdef x (List.mem_cons_of_mem _ hx) y (List.mem_cons_of_mem _ hy))
    obtain ⟨t₂, hins, hmt₂, hmem₂⟩ := orderedInsertO_maxTail cmp o a
      (helem a (List.mem_cons_self _ _)) t hmt
      (fun b hb => hdef a (List.mem_cons_self _ _) b
        (List.mem_cons_of_mem _ ((hmem b).mp hb)))
    refine ⟨t₂, ?_, hmt₂, ?_⟩
    · unfold sortOverrides
      rw [hsort]
      exact hins
    · intro x
      rw [hmem₂ x, hmem x, List.mem_cons]

lemma allEq_getLast (o : VersionOverride) :
    ∀ v : List VersionOverride, v ≠ [] → (∀ x ∈ v, x = o) → v.getLast? = some o := by
  intro v
  induction v with
  | nil => intro h; exact absurd rfl h
  | cons x w ih =>
    intro _ hall
    cases w with
    | nil => simpa using hall x (List.mem_cons_self _ _)
    | cons y w₂ =>
      rw [List.getLast?_cons_cons]
      exact ih (by simp) (fun z hz => hall z (List.mem_cons_of_mem _ hz))

lemma maxTail_getLast (cmp : CmpFn) (o : VersionOverride)
    (t : List VersionOverride) (h : maxTail cmp o t) (ho : o ∈ t) :
    t.getLast? = some o := by
  obtain ⟨u, v, heq, hu, hv⟩ := h
  cases hvnil : v with
  | nil =>
    rw [hvnil] at heq
    simp only [List.append_nil] at heq
    rw [heq] at ho
    exact absurd (hu o ho) (strictlyBelow_irrefl cmp o)
  | cons y w =>
    have hvlast : v.getLast? = some o := allEq_getLast o v (by simp [hvnil]) hv
    rw [heq, List.getLast?_append, hvlast]
    rfl

/-- C4: with a consistent comparator, the effective version, name and
optional flag of an entry with enabled overrides come from the enabled
override that compares strictly above every other one — a
characterization independent of declaration order — and when exactly two
enabled overrides compare equal, the later-declared one wins in the
stable sort. -/
theorem c4_highest_override_selected (cmp : CmpFn) (env : Env) (dep : Dep)
    (o : VersionOverride) :
    (o ∈ enabled_overrides env dep →
      (∀ x ∈ enabled_overrides env dep, x ≠ o → strictlyBelow cmp o x) →
      (∀ a ∈ enabled_overrides env dep, ∀ b ∈ enabled_overrides env dep,
        (cmp a.version b.version).isSome = true) →
      effective cmp dep (enabled_overrides env dep) =
        some (some o.version, o.name.getD dep.lib_name,
              o.optional.getD dep.optional)) ∧
    (∀ a b, enabled_overrides env dep = [a, b] →
      cmp a.version b.version = some Ordering.eq →
      effective cmp dep (enabled_overrides env dep) =
        some (some b.version, b.name.getD dep.lib_name,
              b.optional.getD dep.optional)) := by
  constructor
  · intro ho hmax hdef
    obtain ⟨t, hsort, hmt, hmem⟩ := sortOverrides_maxTail cmp o
      (enabled_overrides env dep)
      (fun x hx => by
        by_cases hxo : x = o
        · exact Or.inl hxo
        · exact Or.inr (hmax x hx hxo))
      hdef
    have hlast : t.getLast? = some o :=
      maxTail_getLast cmp o t hmt ((hmem o).mpr ho)
    have hne : (enabled_overrides env dep).isEmpty = false := by
      cases he : enabled_overrides env dep with
      | nil => rw [he] at ho; cases ho
      | cons x l => rfl
    unfold effective
    rw [hne, hsort]
    simp [hlast]
  · intro a b hl hcmp
    rw [hl]
    unfold effective
    simp [sortOverrides, orderedInsertO, hcmp]

/-- Concrete comparator and entry for the override-selection witness. -/
def cmpW4 : CmpFn := fun a b =>
  if a = b then some Ordering.eq
  else if a = "1.2" ∧ b = "1.4" then some Ordering.lt
  else if a = "1.4" ∧ b = "1.2" then some Ordering.gt
  else none

def ovW12 : VersionOverride :=
  { key := "v1_2", version := "1.2", name := none, optional := none }

def ovW14 : VersionOverride :=
  { key := "v1_4", version := "1.4", name := some "gstreamer-1.4", optional := some true }

def depW4 : Dep :=
  { key := "gstreamer", version := some "1.0", name := some "gstreamer-1.0",
    feature := none, optional := false, cfg := none,
    version_overrides := [ovW14, ovW12] }

def envW4 : Env := fun s =>
  if s = "CARGO_FEATURE_V1_2" then some "1"
  else if s = "CARGO_FEATURE_V1_4" then some "1" else none

/-- Witness for C4 at a concrete entry with two enabled overrides: the
1.4 override wins although declared first, and its name and optional
flag become effective. -/
theorem c4_witness :
    effective cmpW4 depW4 (enabled_overrides envW4 depW4) =
      some (some "1.4", "gstreamer-1.4", true) :=
  (c4_highest_override_selected cmpW4 envW4 depW4 ovW14).1
    (by decide) (by decide) (by decide)

/-- Every closure in the registry builds libraries whose origin tag is
the discovered one — the behaviour of the advertised helper
Library::from_internal_pkg_config, which constructs its result through
Library::from_pkg_config. -/
def regClosuresPkg (reg : Registry) : Prop :=
  ∀ p ∈ reg, ∀ n v lib, p.2 n v = .ok lib → lib.source = .PkgConfig

lemma registryRemove_subset (reg : Registry) (k : String) :
    ∀ p ∈ (registryRemove reg k).2, p ∈ reg := by
  induction reg with
  | nil => intro p hp; exact hp
  | cons q rest ih =>
    obtain ⟨k₀, f⟩ := q
    intro p hp
    unfold registryRemove at hp
    by_cases hk : k₀ = k
    · rw [if_pos hk] at hp
      exact List.mem_cons_of_mem _ hp
    · rw [if_neg hk] at hp
      rcases List.mem_cons.mp hp with rfl | hp₂
      · exact List.mem_cons_self _ _
      · exact List.mem_cons_of_mem _ (ih p hp₂)

lemma registryRemove_found (reg : Registry) (k : String) (f : FnBuildInternal)
    (h : (registryRemove reg k).1 = some f) : ∃ k₀, (k₀, f) ∈ reg := by
  induction reg with
  | nil => cases h
  | cons q rest ih =>
    obtain ⟨k₀, f₀⟩ := q
    unfold registryRemove at h
    by_cases hk : k₀ = k
    · rw [if_pos hk] at h
      cases h
      exact ⟨k₀, List.mem_cons_self _ _⟩
    · rw [if_neg hk] at h
      obtain ⟨k₁, hk₁⟩ := ih h
      exact ⟨k₁, List.mem_cons_of_mem _ hk₁⟩

lemma registryRemove_regClosuresPkg (reg : Registry) (k : String)
    (h : regClosuresPkg reg) : regClosuresPkg (registryRemove reg k).2 :=
  fun p hp => h p (registryRemove_subset reg k p hp)

lemma call_build_internal_reg (cmp : CmpFn) (reg : Registry) (name version : String) :
    (call_build_internal cmp reg name version).2 = (registryRemove reg name).2 := by
  unfold call_build_internal
  split
  next r heq => rw [heq]
  next f r heq =>
    rw [heq]
    split
    · rfl
    · split <;> rfl

lemma call_build_internal_source (cmp : CmpFn) (reg : Registry)
    (name version : String) (lib : Library) (r : Registry)
    (hreg : regClosuresPkg reg)
    (h : call_build_internal cmp reg name version = (.ok lib, r)) :
    lib.source = .PkgConfig ∧ regClosuresPkg r := by
  have hr : r = (registryRemove reg name).2 := by
    have h2 := call_build_internal_reg cmp reg name version
    rw [h] at h2
    exact h2
  refine ⟨?_, hr ▸ registryRemove_regClosuresPkg reg name hreg⟩
  unfold call_build_internal at h
  split at h
  next r₀ heq => simp at h
  next f r₀ heq =>
    obtain ⟨k₀, hk₀⟩ := registryRemove_found reg name f (by rw [heq])
    split at h
    next e hf => simp at h
    next lib₀ hf =>
      have hsrc : lib₀.source = .PkgConfig := hreg (k₀, f) hk₀ name version lib₀ hf
      split at h
      · simp at h
      · simp only [Prod.mk.injEq, Except.ok.injEq] at h
        obtain ⟨h1, -⟩ := h
        rw [← h1]
        exact hsrc

lemma probe_dep_found_cases (ext : Externals) (env : Env) (reg : Registry)
    (dep : Dep) (lib : Library) (r : Registry)
    (h : probe_dep ext env reg dep = (.found lib, r)) :
    (lib = Library.from_env_variables dep.key ∧ r = reg) ∨
    (∃ ln plib, lib = Library.from_pkg_config ln plib ∧ r = reg) ∨
    (∃ n v, call_build_internal ext.cmp reg n v = (.ok lib, r)) := by
  unfold probe_dep probe_dep_inner callBI at h
  repeat' split at h
  all_goals simp at h
  all_goals
    first
      | exact Or.inl ⟨h.1.symm, h.2.symm⟩
      | exact Or.inr (Or.inl ⟨_, _, h.1.symm, h.2.symm⟩)
      | (obtain ⟨h1, h2⟩ := h
         rename_i lib₀ r₀ heq₂
         rw [h1, h2] at heq₂
         exact Or.inr (Or.inr ⟨_, _, heq₂⟩))

lemma probe_dep_found_source (ext : Externals) (env : Env) (reg : Registry)
    (dep : Dep) (lib : Library) (r : Registry)
    (hreg : regClosuresPkg reg)
    (h : probe_dep ext env reg dep = (.found lib, r)) :
    (lib.source = .EnvVariables → lib.version = "") ∧ regClosuresPkg r := by
  rcases probe_dep_found_cases ext env reg dep lib r h with
    ⟨rfl, rfl⟩ | ⟨ln, plib, rfl, rfl⟩ | ⟨n, v, hcall⟩
  · exact ⟨fun _ => rfl, hreg⟩
  · exact ⟨fun hEnv => (by cases hEnv), hreg⟩
  · obtain ⟨hsrc, hr⟩ := call_build_internal_source _ _ _ _ _ _ hreg hcall
    exact ⟨fun hEnv => (by rw [hsrc] at hEnv; cases hEnv), hr⟩

lemma callBI_reg (cmp : CmpFn) (reg : Registry) (n v : String)
    (h : regClosuresPkg reg) : regClosuresPkg (callBI cmp reg n v).2 := by
  have h2 : (callBI cmp reg n v).2 = (call_build_internal cmp reg n v).2 := by
    unfold callBI
    split
    next lib r heq => rw [heq]
    next e r heq => rw [heq]
  rw [h2, call_build_internal_reg]
  exact registryRemove_regClosuresPkg reg n h

lemma probe_dep_reg (ext : Externals) (env : Env) (reg : Registry) (dep : Dep)
    (h : regClosuresPkg reg) : regClosuresPkg (probe_dep ext env reg dep).2 := by
  unfold probe_dep probe_dep_inner
  repeat' split
  all_goals
    first
      | exact h
      | exact callBI_reg _ _ _ _ h

lemma depsAdd_mem (acc : List (String × Library)) (n : String) (lib : Library)
    (p : String × Library) (h : p ∈ depsAdd acc n lib) :
    p = (n, lib) ∨ p ∈ acc := by
  unfold depsAdd at h
  split at h
  · obtain ⟨q, hq, hq₂⟩ := List.mem_map.mp h
    by_cases hqn : q.1 = n
    · left
      rw [← hq₂, if_pos hqn]
    · right
      rw [← hq₂, if_neg hqn]
      exact hq
  · rcases List.mem_append.mp h with h1 | h2
    · right
      exact h1
    · left
      simpa using h2

lemma probe_pkg_config_version_inv (ext : Externals) (env : Env) :
    ∀ (deps : List Dep) (reg : Registry) (acc libs : List (String × Library)),
      regClosuresPkg reg →
      (∀ p ∈ acc, p.2.source = .EnvVariables → p.2.version = "") →
      probe_pkg_config ext env reg acc deps = .ok libs →
      ∀ p ∈ libs, p.2.source = .EnvVariables → p.2.version = "" := by
  intro deps
  induction deps with
  | nil =>
    intro reg acc libs hreg hacc h
    unfold probe_pkg_config at h
    cases h
    exact hacc
  | cons dep rest ih =>
    intro reg acc libs hreg hacc h
    unfold probe_pkg_config at h
    split at h
    next r heq =>
      have hr : regClosuresPkg r := by
        have hq := probe_dep_reg ext env reg dep hreg
        rw [heq] at hq
        exact hq
      exact ih r acc libs hr hacc h
    next lib r heq =>
      have hr : regClosuresPkg r := by
        have hq := probe_dep_reg ext env reg dep hreg
        rw [heq] at hq
        exact hq
      have hlib := (probe_dep_found_source ext env reg dep lib r hreg heq).1
      refine ih r (depsAdd acc dep.key lib) libs hr ?_ h
      intro p hp
      rcases depsAdd_mem acc dep.key lib p hp with rfl | hp₂
      · exact hlib
      · exact hacc p hp₂
    next e heq => cases h
    next heq => cases h

lemma override_lib_source_version (env : Env) (name : String) (lib : Library) :
    (override_from_flags_lib env name lib).source = lib.source ∧
    (override_from_flags_lib env name lib).version = lib.version := by
  unfold override_from_flags_lib
  cases h1 : envGet env (.searchNative name) <;>
    cases h2 : envGet env (.searchFramework name) <;>
      cases h3 : envGet env (.lib name) <;>
        cases h4 : envGet env (.libFramework name) <;>
          cases h5 : envGet env (.incl name) <;>
            simp [h1, h2, h3, h4, h5]

/-- C10: when every registered fallback closure builds
discovered-origin libraries (as the advertised from_internal_pkg_config
helper does), every descriptor of the final resolved set whose origin is
the environment-variable override has the empty string as version: the
no-discovery constructor records the empty version, and the override
pass never changes version or origin. -/
theorem c10_env_origin_version_empty (ext : Externals) (env : Env) (reg : Registry)
    (deps : List Dep) (libs : List (String × Library))
    (hreg : regClosuresPkg reg)
    (h : probe_full ext env reg deps = .ok libs) :
    (∀ p ∈ libs, p.2.source = .EnvVariables → p.2.version = "") ∧
    (∀ name lib, (override_from_flags_lib env name lib).version = lib.version) ∧
    (∀ name, (Library.from_env_variables name).version = "") := by
  refine ⟨?_, fun name lib => (override_lib_source_version env name lib).2,
    fun name => rfl⟩
  unfold probe_full at h
  split at h
  next libs₀ heq =>
    cases h
    have hinv := probe_pkg_config_version_inv ext env deps reg [] libs₀ hreg
      (by intro p hp; cases hp) heq
    intro p hp hsrc
    obtain ⟨q, hq, hq₂⟩ := List.mem_map.mp hp
    rw [← hq₂] at hsrc ⊢
    simp only at hsrc ⊢
    rw [(override_lib_source_version env q.1 q.2).2]
    rw [(override_lib_source_version env q.1 q.2).1] at hsrc
    exact hinv q hq hsrc
  next r heq₂ =>
    rw [h] at heq₂
    exact absurd rfl (heq₂ libs)

/-- Witness for C10: a concrete no-discovery resolution run whose final
descriptor keeps the empty version. -/
theorem c10_witness :
    (override_from_flags_lib envW1 "testlib"
      (Library.from_env_variables "testlib")).version = "" := by
  have h := (c10_env_origin_version_empty extW1 envW1 [] [depW1]
    (override_from_flags envW1 [("testlib", Library.from_env_variables "testlib")])
    (by intro p hp; cases hp) (by decide)).1
  exact h ("testlib", override_from_flags_lib envW1 "testlib"
      (Library.from_env_variables "testlib"))
    (List.mem_cons_self _ _) (by decide)

end SystemDeps
